import Mathlib

/-!
Verification of the NDVI map/weather service (serverless JS handlers) against
its specification. The definitions below are a shallow embedding of the
source files: the Sentinel-2 cloud mask (`maskS2clouds`), the
normalized-difference band math, the recency-based composite selection
(sort by system:time_start descending, then first), the point-sampling pipeline
`runAnalysis` of the optimized value handler, the legacy value handler, the
tile-URL placeholder substitution of the tile handlers, the proxy-mode
header plumbing, and the required-field validation of the recommendation
endpoint. Machine numbers are embedded as `Rat` (band values, thresholds)
and `Int` (millisecond timestamps); quality flags are `Nat` bit patterns.
-/

/- ## Cloud mask (maskS2clouds, identical in all handler variants)

   const cloudBitMask = 1 << 10;
   const cirrusBitMask = 1 << 11;
   const mask = qa.bitwiseAnd(cloudBitMask).eq(0)
                  .and(qa.bitwiseAnd(cirrusBitMask).eq(0));
   return image.updateMask(mask).divide(10000);

   Per-pixel semantics: a pixel with quality word `qa` and raw digital
   value `dn` survives (with value dn / 10000) exactly when the mask is 1;
   a masked-out pixel carries no data (`none`). -/

def cloudBitMask : Nat := 1 <<< 10

def cirrusBitMask : Nat := 1 <<< 11

def s2CloudMask (qa : Nat) : Bool :=
  (qa &&& cloudBitMask == 0) && (qa &&& cirrusBitMask == 0)

def maskS2clouds (qa : Nat) (dn : Rat) : Option Rat :=
  if s2CloudMask qa then some (dn / 10000) else none

/- ## NDVI band math

   recentImage.normalizedDifference(["B8", "B4"]) computes
   (first - second) / (first + second) with the first band B8 (NIR) and the
   second band B4 (Red). Division by zero has no defined value at the
   backend and propagates as a no-data pixel, embedded as `none`. -/

def normalizedDifference (nir red : Rat) : Option Rat :=
  if nir + red = 0 then none else some ((nir - red) / (nir + red))

/- ## Catalog images

   A catalog entry as seen by the point pipeline: acquisition timestamp
   `system:time_start` (ms), the CLOUDY_PIXEL_PERCENTAGE metadata value,
   whether its footprint covers the request point (the `filterBounds`
   outcome), its `system:index` identifier, and the raw pixel the image
   holds at the request point (`none` when the point is outside the data
   extent of the image). -/

structure Pix where
  qa : Nat
  rawB8 : Rat
  rawB4 : Rat
deriving DecidableEq

structure CImage where
  timeStart : Int
  cloudyPixelPercentage : Rat
  coversPoint : Bool
  sysIndex : String
  pixAtPoint : Option Pix
deriving DecidableEq

/- ## Composite selection: .sort("system:time_start", false).first()

   Descending sort on the acquisition timestamp, then the first element.
   Embedded as an insertion sort (the property at stake only concerns the
   sortedness of the result, not the sorting algorithm the backend uses). -/

def insertDesc (x : CImage) : List CImage → List CImage
  | [] => [x]
  | y :: ys => if y.timeStart < x.timeStart then x :: y :: ys else y :: insertDesc x ys

def sortByTimeDesc : List CImage → List CImage
  | [] => []
  | x :: xs => insertDesc x (sortByTimeDesc xs)

def compositeOf (l : List CImage) : Option CImage :=
  (sortByTimeDesc l).head?

/- ## Filters of the optimized point pipeline (runAnalysis, part_004)

   s2.filterBounds(point)
     .filterDate(ee.Date(Date.now()).advance(-120, "day"), ee.Date(Date.now()))
     .filter(ee.Filter.lt("CLOUDY_PIXEL_PERCENTAGE", 20))

   filterDate keeps [start, end). 120 days in ms: 120 * 86400000. -/

def dayMs : Int := 86400000

def filteredAtPoint (now : Int) (cat : List CImage) : List CImage :=
  ((cat.filter (·.coversPoint)).filter
      (fun i => decide (now - 120 * dayMs ≤ i.timeStart) && decide (i.timeStart < now))).filter
    (fun i => decide (i.cloudyPixelPercentage < 20))

/- The NDVI value the reduction extracts at the request point from one
   image: the raw pixel, cloud-masked and rescaled (maskS2clouds applies to
   every band), then normalizedDifference of bands B8 and B4. `none` when
   the point is outside the image extent, when the pixel is cloud-masked,
   or when the band sum is zero. `Reducer.first()` and `Reducer.mean()`
   coincide on this single-pixel geometry. -/

def reduceNdviAtPoint (img : CImage) : Option Rat :=
  img.pixAtPoint.bind fun p =>
    (maskS2clouds p.qa p.rawB8).bind fun nir =>
      (maskS2clouds p.qa p.rawB4).bind fun red =>
        normalizedDifference nir red

/- ## Claim C1 -/

/-- C1: for every quality word, the cloud mask retains a pixel iff both the
opaque-cloud bit (bit 10) and the cirrus bit (bit 11) are clear, regardless
of all other bits, and a retained pixel carries its raw digital value
divided by 10000; any other pixel is excluded. -/
theorem claim_C1 (qa : Nat) (dn : Rat) :
    (maskS2clouds qa dn = some (dn / 10000) ↔
      qa.testBit 10 = false ∧ qa.testBit 11 = false) ∧
    (maskS2clouds qa dn = none ↔
      qa.testBit 10 = true ∨ qa.testBit 11 = true) := by
  have hand : ∀ i : Nat, (qa &&& 1 <<< i = 0) ↔ qa.testBit i = false := by
    intro i
    rw [Nat.shiftLeft_eq, one_mul, Nat.and_two_pow]
    have h2pos : (0 : Nat) < 2 ^ i := Nat.pow_pos (by norm_num)
    constructor
    · intro h
      rcases Nat.mul_eq_zero.mp h with h1 | h2
      · exact Bool.toNat_eq_zero.mp h1
      · omega
    · intro h
      rw [h]
      simp
  have hmask : s2CloudMask qa = true ↔ (qa.testBit 10 = false ∧ qa.testBit 11 = false) := by
    unfold s2CloudMask cloudBitMask cirrusBitMask
    rw [Bool.and_eq_true, beq_iff_eq, beq_iff_eq, hand 10, hand 11]
  unfold maskS2clouds
  by_cases h : s2CloudMask qa
  · rw [if_pos h]
    have ht := hmask.mp h
    constructor
    · exact ⟨fun _ => ht, fun _ => rfl⟩
    · constructor
      · intro hcontra
        exact absurd hcontra (Option.some_ne_none _)
      · rintro (h10 | h11)
        · rw [ht.1] at h10; exact absurd h10 (by simp)
        · rw [ht.2] at h11; exact absurd h11 (by simp)
  · rw [if_neg h]
    have ht : ¬(qa.testBit 10 = false ∧ qa.testBit 11 = false) := fun hc => h (hmask.mpr hc)
    constructor
    · constructor
      · intro hcontra
        exact absurd hcontra (by simp)
      · intro hc
        exact absurd hc ht
    · constructor
      · intro _
        by_cases h10 : qa.testBit 10
        · exact Or.inl h10
        · refine Or.inr ?_
          by_cases h11 : qa.testBit 11
          · exact h11
          · exact absurd ⟨Bool.eq_false_iff.mpr h10, Bool.eq_false_iff.mpr h11⟩ ht
      · intro _
        rfl

/- ## Claim C2 -/

theorem insertDesc_ne_nil (x : CImage) (l : List CImage) : insertDesc x l ≠ [] := by
  cases l with
  | nil => simp [insertDesc]
  | cons y ys =>
    unfold insertDesc
    by_cases h : y.timeStart < x.timeStart
    · rw [if_pos h]; simp
    · rw [if_neg h]; simp

theorem sortDesc_head_max (l : List CImage) (h : l ≠ []) :
    ∃ top rest, sortByTimeDesc l = top :: rest ∧
      ∀ img ∈ l, img.timeStart ≤ top.timeStart := by
  induction l with
  | nil => exact absurd rfl h
  | cons x xs ih =>
    cases xs with
    | nil =>
      refine ⟨x, [], ?_, ?_⟩
      · simp [sortByTimeDesc, insertDesc]
      · intro img hmem
        simp only [List.mem_singleton] at hmem
        rw [hmem]
    | cons y ys =>
      obtain ⟨t, r, hsort, hmax⟩ := ih (by simp)
      have hthis : sortByTimeDesc (x :: y :: ys) = insertDesc x (t :: r) := by
        show insertDesc x (sortByTimeDesc (y :: ys)) = insertDesc x (t :: r)
        rw [hsort]
      by_cases hcmp : t.timeStart < x.timeStart
      · refine ⟨x, t :: r, ?_, ?_⟩
        · rw [hthis]; simp only [insertDesc]; rw [if_pos hcmp]
        · intro img hmem
          rcases List.mem_cons.mp hmem with hx | hxs2
          · rw [hx]
          · exact le_of_lt (lt_of_le_of_lt (hmax img hxs2) hcmp)
      · refine ⟨t, insertDesc x r, ?_, ?_⟩
        · rw [hthis]; simp only [insertDesc]; rw [if_neg hcmp]
        · intro img hmem
          rcases List.mem_cons.mp hmem with hx | hxs2
          · rw [hx]; exact le_of_not_lt hcmp
          · exact hmax img hxs2

/-- C2: for every non-empty filtered collection, the composite obtained by
sorting on acquisition time descending and taking the first element has an
acquisition timestamp greater than or equal to every candidate timestamp. -/
theorem claim_C2 (l : List CImage) (h : l ≠ []) :
    ∃ top, compositeOf l = some top ∧
      ∀ img ∈ l, img.timeStart ≤ top.timeStart := by
  obtain ⟨top, rest, hsort, hmax⟩ := sortDesc_head_max l h
  exact ⟨top, by rw [compositeOf, hsort]; rfl, hmax⟩

/-- C2 witness: the composite of a concrete three-image collection is its
most recent image. -/
theorem claim_C2_witness :
    ∃ top,
      compositeOf
          [⟨100, 5, true, "a", none⟩, ⟨900, 5, true, "b", none⟩,
            ⟨400, 5, true, "c", none⟩] =
        some top ∧
      ∀ img ∈ [(⟨100, 5, true, "a", none⟩ : CImage), ⟨900, 5, true, "b", none⟩,
            ⟨400, 5, true, "c", none⟩],
        img.timeStart ≤ top.timeStart :=
  claim_C2 _ (by simp)

/- ## Claim C3 -/

/-- C3: NDVI is (NIR - Red) / (NIR + Red) with NIR bound to band B8 and Red
to band B4; NDVI(0.5, 0.5) = 0, NDVI(0.3, 0) = 1, and when NIR + Red = 0
the result is no data (and in particular never the value 0). -/
theorem claim_C3 :
    normalizedDifference (1 / 2) (1 / 2) = some 0 ∧
    normalizedDifference (3 / 10) 0 = some 1 ∧
    ∀ nir red : Rat, nir + red = 0 →
      normalizedDifference nir red = none ∧ normalizedDifference nir red ≠ some 0 := by
  refine ⟨by norm_num [normalizedDifference], by norm_num [normalizedDifference], ?_⟩
  intro nir red h
  constructor
  · simp [normalizedDifference, h]
  · simp [normalizedDifference, h]

/-- C3 witness: at the concrete all-zero pixel the band sum is zero and the
NDVI outcome is no data. -/
theorem claim_C3_witness :
    normalizedDifference 0 0 = none ∧ normalizedDifference 0 0 ≠ some 0 :=
  claim_C3.2.2 0 0 (by norm_num)

/- ## Request coordinates and JS semantics

   A query-string parameter is either absent (undefined) or a string.
   JS truthiness of such a value: undefined and the empty string are falsy
   (the part_003 check `if (!lat || !lng)`). parseFloat is embedded for the
   string forms the handlers meet: optional sign, integer digits, optional
   fraction digits; a string with no leading numeric part has no value
   (NaN), and parseFloat(undefined) is NaN. -/

inductive CoordParam
  | missing
  | str (s : String)
deriving DecidableEq

def jsTruthyParam : CoordParam → Bool
  | .missing => false
  | .str s => !(s == "")

def digitsIntVal (cs : List Char) : Rat :=
  cs.foldl (fun acc c => acc * 10 + ((c.toNat - 48 : Nat) : Rat)) 0

def digitsFracVal (cs : List Char) : Rat :=
  cs.foldr (fun c acc => (((c.toNat - 48 : Nat) : Rat) + acc) / 10) 0

def parseFloatQ (s : String) : Option Rat :=
  let signSplit : Rat × List Char :=
    match s.data with
    | '-' :: t => (-1, t)
    | '+' :: t => (1, t)
    | cs => (1, cs)
  let ip := signSplit.2.takeWhile (·.isDigit)
  let rest := signSplit.2.dropWhile (·.isDigit)
  let fp :=
    match rest with
    | '.' :: t => t.takeWhile (·.isDigit)
    | _ => []
  if ip = [] ∧ fp = [] then none
  else some (signSplit.1 * (digitsIntVal ip + digitsFracVal fp))

def parseFloatOfParam : CoordParam → Option Rat
  | .missing => none
  | .str s => parseFloatQ s

/- ## Evaluation boundaries and responses

   The explicit remote-evaluation boundaries a point request crosses, in
   order, plus the local validation step; and the HTTP outcomes a point
   handler can produce. `okNull` is a 200 response whose ndvi field is
   null (only the legacy handler can produce it). -/

inductive Ev
  | validateCoords
  | credentialLoad
  | sessionInit
  | preflightCheck
  | reduction
deriving DecidableEq

inductive PointResp
  | badRequest (msg : String)
  | ok (ndvi : Rat)
  | okNull
  | serverError (msg : String)
deriving DecidableEq

def noImageMsg : String := "No recent cloud-free image found for this location."

def noDataMsg : String := "Point may be in water or an area with no data."

/- ## runAnalysis (part_004)

   Pre-flight: image.get("system:index").evaluate; when the filtered
   collection is empty the placeholder has no identifier (err or null id)
   and the promise rejects with the no-image error; the JS check
   `if (err || !id)` also treats an empty-string id as absent. Otherwise
   reduceRegion(first, point, 10).get("NDVI").evaluate: a null result
   rejects with the no-data error, otherwise resolves the scalar. The
   event list records which evaluation boundaries were crossed. -/

def runAnalysis (now : Int) (cat : List CImage) : List Ev × Except String Rat :=
  match compositeOf (filteredAtPoint now cat) with
  | none => ([Ev.preflightCheck], Except.error noImageMsg)
  | some img =>
    if img.sysIndex = "" then ([Ev.preflightCheck], Except.error noImageMsg)
    else
      match reduceNdviAtPoint img with
      | none => ([Ev.preflightCheck, Ev.reduction], Except.error noDataMsg)
      | some v => ([Ev.preflightCheck, Ev.reduction], Except.ok v)

/- The part_004 endpoint: parseFloat both coordinates, reject with 400 on
   NaN before authenticating; then authenticate (credential load + session
   init) and run the analysis, mapping a rejection to a 500 body with the
   distinguishing message. -/

def valueHandler (latP lonP : CoordParam) (now : Int) (cat : List CImage) :
    List Ev × PointResp :=
  match parseFloatOfParam latP, parseFloatOfParam lonP with
  | some _, some _ =>
    let r := runAnalysis now cat
    ([Ev.validateCoords, Ev.credentialLoad, Ev.sessionInit] ++ r.1,
      match r.2 with
      | Except.ok v => PointResp.ok v
      | Except.error m => PointResp.serverError m)
  | _, _ => ([Ev.validateCoords], PointResp.badRequest "Invalid or missing coordinates.")

/- ## Legacy value handler (part_003)

   No filterBounds, a three-month window (embedded as 90 days, the window
   length the spec gives for this handler), Reducer.mean at the point
   (identical to first on a one-pixel geometry), no pre-flight, no null
   check: the evaluated result is returned as-is with status 200. With an
   empty collection first() is a contentless placeholder (spec 4.2) and the
   reduction evaluation fails at the backend, caught as a generic 500. -/

def threeMonthsMs : Int := 90 * 86400000

def legacyFiltered (now : Int) (cat : List CImage) : List CImage :=
  (cat.filter
      (fun i => decide (now - threeMonthsMs ≤ i.timeStart) && decide (i.timeStart < now))).filter
    (fun i => decide (i.cloudyPixelPercentage < 20))

def legacyGetNdviImage (now : Int) (cat : List CImage) : Option CImage :=
  compositeOf (legacyFiltered now cat)

def legacyEvaluate (img : Option CImage) : Except String (Option Rat) :=
  match img with
  | none => Except.error "Image has no bands."
  | some i => Except.ok (reduceNdviAtPoint i)

def legacyValueHandler (latP lngP : CoordParam) (now : Int) (cat : List CImage) :
    List Ev × PointResp :=
  if !jsTruthyParam latP || !jsTruthyParam lngP then
    ([Ev.validateCoords],
      PointResp.badRequest "Latitude (lat) and Longitude (lng) are required.")
  else
    ([Ev.validateCoords, Ev.credentialLoad, Ev.sessionInit, Ev.reduction],
      match legacyEvaluate (legacyGetNdviImage now cat) with
      | Except.error _ => PointResp.serverError "Failed to get GEE value."
      | Except.ok none => PointResp.okNull
      | Except.ok (some v) => PointResp.ok v)

/- A process serving a list of requests: every request runs the same
   handler against the same environment; the concatenated event trace shows
   which boundaries were crossed how often in one process lifetime. -/

def processTrace (reqs : List (CoordParam × CoordParam)) (now : Int)
    (cat : List CImage) : List Ev :=
  (reqs.map (fun r => (valueHandler r.1 r.2 now cat).1)).flatten

/- ## Claims C4 and C5 -/

/-- C4 (amended): for the optimized point endpoint (runAnalysis handler), a
request whose parsed coordinates are numeric and whose filtered window
holds zero qualifying images crosses only the pre-flight evaluation
boundary (no reduction) and answers with the distinguished no-image 500
error, never a scalar. The legacy point endpoint has no pre-flight and
fails generically instead. -/
theorem claim_C4_amended (latP lonP : CoordParam) (now : Int) (cat : List CImage)
    (hlat : (parseFloatOfParam latP).isSome = true)
    (hlon : (parseFloatOfParam lonP).isSome = true)
    (hempty : filteredAtPoint now cat = []) :
    valueHandler latP lonP now cat =
      ([Ev.validateCoords, Ev.credentialLoad, Ev.sessionInit, Ev.preflightCheck],
        PointResp.serverError noImageMsg) := by
  obtain ⟨la, hla⟩ := Option.isSome_iff_exists.mp hlat
  obtain ⟨lo, hlo⟩ := Option.isSome_iff_exists.mp hlon
  have hrun : runAnalysis now cat = ([Ev.preflightCheck], Except.error noImageMsg) := by
    unfold runAnalysis
    rw [hempty]
    rfl
  unfold valueHandler
  rw [hla, hlo, hrun]
  rfl

/-- C4 witness: a concrete request over a catalog whose only image falls
outside the 120-day window receives the distinguished no-image error after
the pre-flight check alone. -/
theorem claim_C4_witness :
    valueHandler (CoordParam.str "41.3") (CoordParam.str "69.2") 1
        [⟨5, 0, true, "S2A_X", none⟩] =
      ([Ev.validateCoords, Ev.credentialLoad, Ev.sessionInit, Ev.preflightCheck],
        PointResp.serverError noImageMsg) :=
  claim_C4_amended _ _ _ _ (by decide) (by decide) (by decide)

/-- C4 counterexample: the legacy point endpoint, on a window with zero
qualifying images, answers with the generic evaluation failure, not the
distinguished no-image error, and crosses no pre-flight boundary. -/
theorem claim_C4_counterexample :
    legacyValueHandler (CoordParam.str "41.3") (CoordParam.str "69.2") 1
        [⟨0, 50, true, "S2A_X", none⟩] =
      ([Ev.validateCoords, Ev.credentialLoad, Ev.sessionInit, Ev.reduction],
        PointResp.serverError "Failed to get GEE value.") ∧
    PointResp.serverError "Failed to get GEE value." ≠ PointResp.serverError noImageMsg ∧
    Ev.preflightCheck ∉
      (legacyValueHandler (CoordParam.str "41.3") (CoordParam.str "69.2") 1
        [⟨0, 50, true, "S2A_X", none⟩]).1 := by
  decide

/-- C5 (amended): for the optimized point endpoint, when a qualifying
composite exists but the reduction at the point yields no value, the
request answers with the distinguished no-data 500 error, never a success
carrying 0 or null. The legacy point endpoint instead answers 200 with a
null ndvi field. -/
theorem claim_C5_amended (latP lonP : CoordParam) (now : Int) (cat : List CImage)
    (img : CImage)
    (hlat : (parseFloatOfParam latP).isSome = true)
    (hlon : (parseFloatOfParam lonP).isSome = true)
    (hsel : compositeOf (filteredAtPoint now cat) = some img)
    (hid : img.sysIndex ≠ "")
    (hred : reduceNdviAtPoint img = none) :
    valueHandler latP lonP now cat =
      ([Ev.validateCoords, Ev.credentialLoad, Ev.sessionInit, Ev.preflightCheck,
          Ev.reduction],
        PointResp.serverError noDataMsg) := by
  obtain ⟨la, hla⟩ := Option.isSome_iff_exists.mp hlat
  obtain ⟨lo, hlo⟩ := Option.isSome_iff_exists.mp hlon
  have hrun : runAnalysis now cat =
      ([Ev.preflightCheck, Ev.reduction], Except.error noDataMsg) := by
    simp [runAnalysis, hsel, hid, hred]
  unfold valueHandler
  rw [hla, hlo, hrun]
  rfl

/-- C5 witness: a concrete request whose selected composite holds no pixel
at the point receives the distinguished no-data error. -/
theorem claim_C5_witness :
    valueHandler (CoordParam.str "41.3") (CoordParam.str "69.2") 1
        [⟨0, 0, true, "S2A_X", none⟩] =
      ([Ev.validateCoords, Ev.credentialLoad, Ev.sessionInit, Ev.preflightCheck,
          Ev.reduction],
        PointResp.serverError noDataMsg) :=
  claim_C5_amended _ _ _ _ ⟨0, 0, true, "S2A_X", none⟩ (by decide) (by decide)
    (by decide) (by decide) (by decide)

/-- C5 counterexample: the legacy point endpoint, when the reduction yields
no value, answers 200 with a null ndvi sample. -/
theorem claim_C5_counterexample :
    legacyValueHandler (CoordParam.str "41.3") (CoordParam.str "69.2") 1
        [⟨0, 0, true, "S2A_X", none⟩] =
      ([Ev.validateCoords, Ev.credentialLoad, Ev.sessionInit, Ev.reduction],
        PointResp.okNull) := by
  decide

/- ## Claim C7 -/

/-- C7 (amended): the optimized point endpoint rejects missing or
non-numeric coordinates with a 400 response whose trace holds only the
validation step: no credential load and no session establishment happen.
The legacy point endpoint only rejects absent or empty parameters before
authenticating; a non-numeric string passes its truthiness check. -/
theorem claim_C7_amended (latP lonP : CoordParam) (now : Int) (cat : List CImage)
    (h : parseFloatOfParam latP = none ∨ parseFloatOfParam lonP = none) :
    valueHandler latP lonP now cat =
      ([Ev.validateCoords], PointResp.badRequest "Invalid or missing coordinates.") ∧
    Ev.sessionInit ∉ (valueHandler latP lonP now cat).1 ∧
    Ev.credentialLoad ∉ (valueHandler latP lonP now cat).1 := by
  have heq : valueHandler latP lonP now cat =
      ([Ev.validateCoords], PointResp.badRequest "Invalid or missing coordinates.") := by
    unfold valueHandler
    rcases h with h | h
    · rw [h]
    · cases hfst : parseFloatOfParam latP with
      | none => rfl
      | some a => rw [h]
  refine ⟨heq, ?_, ?_⟩ <;> rw [heq] <;> decide

/-- C7 witness: a concrete request with a non-numeric latitude is rejected
locally with the 400 message and no session is established. -/
theorem claim_C7_witness :
    valueHandler (CoordParam.str "abc") (CoordParam.str "69.2") 1 [] =
      ([Ev.validateCoords], PointResp.badRequest "Invalid or missing coordinates.") ∧
    Ev.sessionInit ∉ (valueHandler (CoordParam.str "abc") (CoordParam.str "69.2") 1 []).1 ∧
    Ev.credentialLoad ∉
      (valueHandler (CoordParam.str "abc") (CoordParam.str "69.2") 1 []).1 :=
  claim_C7_amended _ _ 1 [] (Or.inl (by decide))

/-- C7 counterexample: the legacy point endpoint lets the non-numeric
latitude string pass its truthiness validation, establishes the session,
and ends in a 500, not a 400. -/
theorem claim_C7_counterexample :
    legacyValueHandler (CoordParam.str "abc") (CoordParam.str "69.2") 1 [] =
      ([Ev.validateCoords, Ev.credentialLoad, Ev.sessionInit, Ev.reduction],
        PointResp.serverError "Failed to get GEE value.") ∧
    Ev.sessionInit ∈
      (legacyValueHandler (CoordParam.str "abc") (CoordParam.str "69.2") 1 []).1 ∧
    parseFloatQ "abc" = none := by
  decide

/- ## Claim C9 -/

theorem runAnalysis_trace (now : Int) (cat : List CImage) :
    (runAnalysis now cat).1 = [Ev.preflightCheck] ∨
    (runAnalysis now cat).1 = [Ev.preflightCheck, Ev.reduction] := by
  rcases hsel : compositeOf (filteredAtPoint now cat) with _ | img
  · left
    simp [runAnalysis, hsel]
  · by_cases h : img.sysIndex = ""
    · left
      simp [runAnalysis, hsel, h]
    · rcases hred : reduceNdviAtPoint img with _ | v
      · right
        simp [runAnalysis, hsel, h, hred]
      · right
        simp [runAnalysis, hsel, h, hred]

theorem valueHandler_credLoad_count (latP lonP : CoordParam) (now : Int)
    (cat : List CImage)
    (hlat : (parseFloatOfParam latP).isSome = true)
    (hlon : (parseFloatOfParam lonP).isSome = true) :
    (valueHandler latP lonP now cat).1.count Ev.credentialLoad = 1 := by
  obtain ⟨la, hla⟩ := Option.isSome_iff_exists.mp hlat
  obtain ⟨lo, hlo⟩ := Option.isSome_iff_exists.mp hlon
  have htr : (valueHandler latP lonP now cat).1 =
      [Ev.validateCoords, Ev.credentialLoad, Ev.sessionInit] ++ (runAnalysis now cat).1 := by
    unfold valueHandler
    rw [hla, hlo]
  rw [htr, List.count_append]
  rcases runAnalysis_trace now cat with h | h <;> rw [h] <;> decide

/-- C9 (amended): credentials are not loaded once per process; the handler
re-reads and re-parses them inside every request that passes validation, so
a process serving n validated requests performs exactly n credential loads,
each after request-specific validation work. -/
theorem claim_C9_amended (reqs : List (CoordParam × CoordParam)) (now : Int)
    (cat : List CImage)
    (h : ∀ r ∈ reqs, (parseFloatOfParam r.1).isSome = true ∧
      (parseFloatOfParam r.2).isSome = true) :
    (processTrace reqs now cat).count Ev.credentialLoad = reqs.length := by
  induction reqs with
  | nil => rfl
  | cons r rs ih =>
    have hr := h r (List.mem_cons_self r rs)
    have hstep : processTrace (r :: rs) now cat =
        (valueHandler r.1 r.2 now cat).1 ++ processTrace rs now cat := rfl
    rw [hstep, List.count_append,
      valueHandler_credLoad_count r.1 r.2 now cat hr.1 hr.2,
      ih (fun x hx => h x (List.mem_cons_of_mem r hx))]
    simp [Nat.add_comm]

/-- C9 witness: a process serving two validated requests performs two
credential loads. -/
theorem claim_C9_witness :
    (processTrace [(CoordParam.str "41.0", CoordParam.str "69.0"),
        (CoordParam.str "42.0", CoordParam.str "70.0")] 1 []).count Ev.credentialLoad = 2 :=
  claim_C9_amended _ 1 [] (by decide)

/-- C9 counterexample: in a two-request process the credential material is
loaded twice, not once, and within one request the load happens only after
the request-specific coordinate validation. -/
theorem claim_C9_counterexample :
    (processTrace [(CoordParam.str "41.0", CoordParam.str "69.0"),
        (CoordParam.str "42.0", CoordParam.str "70.0")] 1 []).count Ev.credentialLoad = 2 ∧
    (valueHandler (CoordParam.str "41.0") (CoordParam.str "69.0") 1 []).1 =
      [Ev.validateCoords, Ev.credentialLoad, Ev.sessionInit, Ev.preflightCheck] := by
  decide

/- ## Claim C8: tile proxy mode (part_001, proxy variant)

   const options = {
       hostname: parsedUrl.hostname,
       path: parsedUrl.path,
       method: "GET",
       headers: { "User-Agent": req.headers["user-agent"] }
   };
   const proxyReq = https.request(options, (proxyRes) => {
       res.writeHead(proxyRes.statusCode, proxyRes.headers);
       proxyRes.pipe(res, { end: true });
   });

   The upstream request carries exactly the caller User-Agent value; a
   successful upstream response has its status code and headers written
   back verbatim (the streamed body is byte-for-byte piping and carries no
   separate data model here). -/

structure UpstreamResponse where
  statusCode : Nat
  headers : List (String × String)
deriving DecidableEq

structure ProxyOptions where
  hostname : String
  path : String
  method : String
  headers : List (String × String)
deriving DecidableEq

def mkProxyOptions (hostname path callerUA : String) : ProxyOptions :=
  ⟨hostname, path, "GET", [("User-Agent", callerUA)]⟩

structure ClientHead where
  statusCode : Nat
  headers : List (String × String)
deriving DecidableEq

def writeProxyHead (u : UpstreamResponse) : ClientHead :=
  ⟨u.statusCode, u.headers⟩

/-- C8: in proxy mode the upstream request carries the caller User-Agent
value unmodified (it is the only header sent), and on a successful fetch
the status code and headers written back to the caller equal the upstream
response status code and headers. -/
theorem claim_C8 (hostname path ua : String) (u : UpstreamResponse) :
    (mkProxyOptions hostname path ua).headers = [("User-Agent", ua)] ∧
    (mkProxyOptions hostname path ua).method = "GET" ∧
    (writeProxyHead u).statusCode = u.statusCode ∧
    (writeProxyHead u).headers = u.headers :=
  ⟨rfl, rfl, rfl, rfl⟩

/- ## Claim C10: recommendation endpoint required-field check

   const { lat, lon, ndvi, weatherData, lang } = req.body;
   if (!lat || !lon || !ndvi || !weatherData) {
       return res.status(400).json({ error: "Missing required data: ..." });
   }

   Presence is tested by JS truthiness: undefined, null, 0, the empty
   string and false are all falsy. -/

inductive JsVal
  | undef
  | null
  | num (q : Rat)
  | str (s : String)
  | boolean (b : Bool)
  | obj
deriving DecidableEq

def JsVal.truthy : JsVal → Bool
  | .undef => false
  | .null => false
  | .num q => decide (q ≠ 0)
  | .str s => !(s == "")
  | .boolean b => b
  | .obj => true

structure RecBody where
  lat : JsVal
  lon : JsVal
  ndvi : JsVal
  weatherData : JsVal
deriving DecidableEq

inductive RecResp
  | badRequest (msg : String)
  | proceed
deriving DecidableEq

def missingDataMsg : String :=
  "Missing required data: lat, lon, ndvi, and weatherData are required."

def recHandlerValidation (b : RecBody) : RecResp :=
  if !b.lat.truthy || !b.lon.truthy || !b.ndvi.truthy || !b.weatherData.truthy then
    RecResp.badRequest missingDataMsg
  else
    RecResp.proceed

/-- C10: a recommendation request whose lat, lon or ndvi field is the
number 0 is rejected with the 400 missing-data error, because the
required-field presence check uses JS truthiness and 0 is falsy. -/
theorem claim_C10 (b : RecBody)
    (h : b.lat = JsVal.num 0 ∨ b.lon = JsVal.num 0 ∨ b.ndvi = JsVal.num 0) :
    recHandlerValidation b = RecResp.badRequest missingDataMsg := by
  have hzero : (JsVal.num 0).truthy = false := by
    simp [JsVal.truthy]
  unfold recHandlerValidation
  rcases h with h | h | h <;> rw [h, hzero] <;> simp

/-- C10 witness: a body with a valid position and an NDVI sample of exactly
0 is rejected as missing data. -/
theorem claim_C10_witness :
    recHandlerValidation ⟨JsVal.num 41, JsVal.num 69, JsVal.num 0, JsVal.obj⟩ =
      RecResp.badRequest missingDataMsg :=
  claim_C10 _ (Or.inr (Or.inr rfl))

/- ## Claim C6: tile-URL placeholder substitution

   part_001 (both tile variants):
     const tileUrl = mapId.urlFormat.replace("{x}", x).replace("{y}", y).replace("{z}", z);
   part_002 (legacy tile variant): res.redirect(mapId.urlFormat) with no
   substitution at all.

   JS String.prototype.replace with a string pattern replaces only the
   first occurrence, embedded here on character lists. `occCount s p`
   counts the positions of s at which the pattern p matches. -/

def occCount : List Char → List Char → Nat
  | [], _ => 0
  | c :: rest, pat =>
    (if (c :: rest).take pat.length = pat then 1 else 0) + occCount rest pat

def replFirst : List Char → List Char → List Char → List Char
  | [], _, _ => []
  | c :: rest, pat, rep =>
    if (c :: rest).take pat.length = pat then rep ++ (c :: rest).drop pat.length
    else c :: replFirst rest pat rep

def jsReplace (s pat rep : String) : String :=
  ⟨replFirst s.data pat.data rep.data⟩

def tileUrl (urlFormat x y z : String) : String :=
  jsReplace (jsReplace (jsReplace urlFormat "{x}" x) "{y}" y) "{z}" z

def legacyTileRedirect (urlFormat : String) : String :=
  urlFormat

def occCountStr (s pat : String) : Nat :=
  occCount s.data pat.data

/- A pattern occurrence crossing the boundary between u and v: it starts
   inside u but extends past its end. `CrossFree` rules such occurrences
   out, which makes occurrence counting additive over the append. -/

def CrossFree (u v p : List Char) : Prop :=
  ∀ i, i < u.length → u.length < i + p.length →
    ((u ++ v).drop i).take p.length ≠ p

theorem occCount_append (u v p : List Char) (h : CrossFree u v p) :
    occCount (u ++ v) p = occCount u p + occCount v p := by
  induction u with
  | nil => simp [occCount]
  | cons c u' ih =>
    have hcf : CrossFree u' v p := by
      intro i hi hlen heq
      refine h (i + 1) (by simpa using Nat.succ_lt_succ hi) ?_ ?_
      · simp only [List.length_cons]
        omega
      · simpa [List.drop_succ_cons] using heq
    rw [List.cons_append]
    simp only [occCount]
    rw [ih hcf]
    by_cases hle : p.length ≤ (c :: u').length
    · have hsame : (c :: (u' ++ v)).take p.length = (c :: u').take p.length := by
        have : (c :: (u' ++ v)) = (c :: u') ++ v := by simp
        rw [this, List.take_append_eq_append_take, Nat.sub_eq_zero_of_le hle]
        simp
      rw [hsame, Nat.add_assoc]
    · simp only [List.length_cons] at hle
      have h0 := h 0 (by simp) (by simp only [List.length_cons]; omega)
      have hL : ¬(c :: (u' ++ v)).take p.length = p := by
        simpa using h0
      have hR : ¬(c :: u').take p.length = p := by
        intro hcontra
        have hlen := congrArg List.length hcontra
        simp only [List.length_take, List.length_cons] at hlen
        omega
      rw [if_neg hL, if_neg hR, Nat.add_assoc]

theorem occCount_cons_ne (c : Char) (s : List Char) (p0 : Char) (ps : List Char)
    (h : c ≠ p0) : occCount (c :: s) (p0 :: ps) = occCount s (p0 :: ps) := by
  simp only [occCount]
  have hne : ¬((c :: s).take (p0 :: ps).length = p0 :: ps) := by
    intro hc
    rw [List.length_cons, List.take_succ_cons] at hc
    exact h (List.cons.injEq .. ▸ hc).1
  rw [if_neg hne]
  simp

theorem occCount_append_allNe (r b : List Char) (p0 : Char) (ps : List Char)
    (h : ∀ ch ∈ r, ch ≠ p0) :
    occCount (r ++ b) (p0 :: ps) = occCount b (p0 :: ps) := by
  induction r with
  | nil => simp
  | cons c r' ih =>
    rw [List.cons_append, occCount_cons_ne c _ p0 ps (h c (by simp)),
      ih (fun ch hch => h ch (by simp [hch]))]

theorem crossFree_of_head (a w : List Char) (p0 p1 p2 w0 : Char)
    (hw : w.head? = some w0) (h1 : w0 ≠ p1) (h2 : w0 ≠ p2) :
    CrossFree a w [p0, p1, p2] := by
  intro i hi hlen heq
  cases w with
  | nil => simp at hw
  | cons wh wt =>
    have hwh : wh = w0 := by simpa using hw
    subst hwh
    have hdrop : (a ++ wh :: wt).drop i = a.drop i ++ wh :: wt := by
      rw [List.drop_append_eq_append_drop, Nat.sub_eq_zero_of_le (Nat.le_of_lt hi)]
      simp
    rw [hdrop] at heq
    have hdl : (a.drop i).length = a.length - i := List.length_drop i a
    simp only [List.length_cons, List.length_nil] at hlen
    rcases hsplit : a.drop i with _ | ⟨d0, dtl⟩
    · rw [hsplit] at hdl
      simp at hdl
      omega
    · rcases dtl with _ | ⟨d1, dtl2⟩
      · rw [hsplit] at heq
        simp only [List.cons_append, List.nil_append] at heq
        cases wt with
        | nil => simp [List.take_succ_cons] at heq
        | cons wt0 wt' =>
          simp only [List.length_cons, List.length_nil, List.take_succ_cons,
            List.take_zero] at heq
          simp only [List.cons.injEq, and_true] at heq
          exact h1 heq.2.1
      · rcases dtl2 with _ | ⟨d2, dtl3⟩
        · rw [hsplit] at heq
          simp only [List.cons_append, List.nil_append, List.length_cons,
            List.length_nil, List.take_succ_cons, List.take_zero] at heq
          simp only [List.cons.injEq, and_true] at heq
          exact h2 heq.2.2
        · rw [hsplit] at hdl
          simp only [List.length_cons] at hdl
          omega

theorem occCount_drop_le (n : Nat) (l p : List Char) :
    occCount (l.drop n) p ≤ occCount l p := by
  induction n generalizing l with
  | zero => simp
  | succ n ih =>
    cases l with
    | nil => simp
    | cons c l' =>
      rw [List.drop_succ_cons]
      calc occCount (l'.drop n) p ≤ occCount l' p := ih l'
        _ ≤ occCount (c :: l') p := by simp only [occCount]; omega

theorem replFirst_decomp (s p r : List Char) (hp : p ≠ []) (h : occCount s p = 1) :
    ∃ a b, s = a ++ p ++ b ∧ occCount a p = 0 ∧ occCount b p = 0 ∧
      replFirst s p r = a ++ r ++ b := by
  induction s with
  | nil => simp [occCount] at h
  | cons c s' ih =>
    by_cases hm : (c :: s').take p.length = p
    · have hs'0 : occCount s' p = 0 := by
        have hh := h
        simp only [occCount, if_pos hm] at hh
        omega
      refine ⟨[], (c :: s').drop p.length, ?_, by simp [occCount], ?_, ?_⟩
      · rw [List.nil_append]
        conv_lhs => rw [← List.take_append_drop p.length (c :: s')]
        rw [hm]
      · have hle : occCount ((c :: s').drop p.length) p ≤ occCount s' p := by
          cases p with
          | nil => exact absurd rfl hp
          | cons p0 ps =>
            rw [List.length_cons, List.drop_succ_cons]
            exact occCount_drop_le ps.length s' (p0 :: ps)
        omega
      · show replFirst (c :: s') p r = [] ++ r ++ (c :: s').drop p.length
        simp only [replFirst, if_pos hm, List.nil_append]
    · have h1 : occCount s' p = 1 := by
        have hh := h
        simp only [occCount, if_neg hm] at hh
        omega
      obtain ⟨a, b, hsab, ha, hb, hrepl⟩ := ih h1
      refine ⟨c :: a, b, by rw [hsab]; simp, ?_, hb, ?_⟩
      · have hcc : ¬(c :: a).take p.length = p := by
          intro hcontra
          by_cases hle : p.length ≤ (c :: a).length
          · apply hm
            have hform : (c :: s') = (c :: a) ++ (p ++ b) := by
              rw [hsab]
              simp
            rw [hform, List.take_append_eq_append_take, Nat.sub_eq_zero_of_le hle]
            simpa using hcontra
          · have hlen := congrArg List.length hcontra
            simp only [List.length_take, List.length_cons] at hlen
            simp only [List.length_cons] at hle
            omega
        simp only [occCount, if_neg hcc]
        omega
      · show replFirst (c :: s') p r = (c :: a) ++ r ++ b
        simp only [replFirst, if_neg hm, hrepl]
        simp

theorem occCount_phl_cons (c c' : Char) (b : List Char) (h1 : c ≠ c') (h2 : c ≠ '{') :
    occCount ('{' :: c :: '}' :: b) ['{', c', '}'] = occCount b ['{', c', '}'] := by
  have e0 : ¬(('{' :: c :: '}' :: b).take (['{', c', '}'].length) = ['{', c', '}']) := by
    simp only [List.length_cons, List.length_nil, List.take_succ_cons, List.take_zero]
    simp only [List.cons.injEq, and_true]
    intro hcontra
    apply h1
    tauto
  have e1 : ¬((c :: '}' :: b).take (['{', c', '}'].length) = ['{', c', '}']) := by
    cases b with
    | nil => simp [List.take_succ_cons]
    | cons b0 b' =>
      simp only [List.length_cons, List.length_nil, List.take_succ_cons, List.take_zero]
      simp only [List.cons.injEq]
      intro hcontra
      exact h2 hcontra.1
  have e2 : ¬(('}' :: b).take (['{', c', '}'].length) = ['{', c', '}']) := by
    simp only [List.length_cons, List.length_nil, List.take_succ_cons]
    simp only [List.cons.injEq]
    intro hcontra
    exact absurd hcontra.1 (by decide)
  simp only [occCount, if_neg e0, if_neg e1, if_neg e2]
  omega

theorem replaceOnce_step (s v : List Char) (c : Char)
    (hcb : c ≠ '{') (hcd : c.isDigit = false)
    (hv0 : v ≠ []) (hvd : ∀ ch ∈ v, ch.isDigit = true)
    (h1 : occCount s ['{', c, '}'] = 1) :
    ∃ a b, s = a ++ ['{', c, '}'] ++ b ∧
      replFirst s ['{', c, '}'] v = a ++ v ++ b ∧
      occCount (a ++ v ++ b) ['{', c, '}'] = 0 ∧
      ∀ c' : Char, c' ≠ c → c'.isDigit = false → c' ≠ '{' →
        occCount (a ++ v ++ b) ['{', c', '}'] = occCount s ['{', c', '}'] := by
  obtain ⟨a, b, hsab, ha, hb, hrepl⟩ :=
    replFirst_decomp s ['{', c, '}'] v (by simp) h1
  obtain ⟨v0, vt, rfl⟩ : ∃ v0 vt, v = v0 :: vt := by
    cases v with
    | nil => exact absurd rfl hv0
    | cons v0 vt => exact ⟨v0, vt, rfl⟩
  have hv0d : v0.isDigit = true := hvd v0 (by simp)
  have hvne : ∀ ch ∈ v0 :: vt, ch ≠ '{' := by
    intro ch hch heq
    have hd := hvd ch hch
    rw [heq] at hd
    simp at hd
  have hdig_ne : ∀ x : Char, x.isDigit = false → v0 ≠ x := by
    intro x hx heq
    rw [heq, hx] at hv0d
    exact absurd hv0d (by simp)
  have hcfc : CrossFree a ((v0 :: vt) ++ b) ['{', c, '}'] :=
    crossFree_of_head a _ '{' c '}' v0 (by simp) (hdig_ne c hcd)
      (hdig_ne '}' (by decide))
  have hzero : occCount (a ++ (v0 :: vt) ++ b) ['{', c, '}'] = 0 := by
    rw [List.append_assoc, occCount_append a _ _ hcfc,
      occCount_append_allNe (v0 :: vt) b '{' [c, '}'] hvne, ha, hb]
  refine ⟨a, b, hsab, hrepl, hzero, ?_⟩
  intro c' hc'c hc'd hc'b
  have hcfc' : CrossFree a ((v0 :: vt) ++ b) ['{', c', '}'] :=
    crossFree_of_head a _ '{' c' '}' v0 (by simp) (hdig_ne c' hc'd)
      (hdig_ne '}' (by decide))
  have hcfp : CrossFree a (['{', c, '}'] ++ b) ['{', c', '}'] :=
    crossFree_of_head a _ '{' c' '}' '{' (by simp) (Ne.symm hc'b) (by decide)
  have hs : occCount s ['{', c', '}'] =
      occCount a ['{', c', '}'] + occCount b ['{', c', '}'] := by
    rw [hsab, List.append_assoc, occCount_append a _ _ hcfp]
    have hform : ['{', c, '}'] ++ b = '{' :: c :: '}' :: b := by simp
    rw [hform, occCount_phl_cons c c' b (Ne.symm hc'c) hcb]
  have hu : occCount (a ++ (v0 :: vt) ++ b) ['{', c', '}'] =
      occCount a ['{', c', '}'] + occCount b ['{', c', '}'] := by
    rw [List.append_assoc, occCount_append a _ _ hcfc',
      occCount_append_allNe (v0 :: vt) b '{' [c', '}'] hvne]
  rw [hu, hs]

/-- C6 (amended): in the substituting tile handlers, given a template with
exactly one occurrence of each placeholder and digit-string tile
coordinates, the substituted URL replaces each placeholder exactly once by
the corresponding request value (witnessed by the per-step decompositions)
and retains no residual placeholder text. The remaining tile handler
redirects to the unsubstituted template instead. -/
theorem claim_C6_amended (t vx vy vz : String)
    (hx : occCountStr t "{x}" = 1) (hy : occCountStr t "{y}" = 1)
    (hz : occCountStr t "{z}" = 1)
    (hvx : vx.data ≠ [] ∧ ∀ ch ∈ vx.data, ch.isDigit = true)
    (hvy : vy.data ≠ [] ∧ ∀ ch ∈ vy.data, ch.isDigit = true)
    (hvz : vz.data ≠ [] ∧ ∀ ch ∈ vz.data, ch.isDigit = true) :
    occCountStr (tileUrl t vx vy vz) "{x}" = 0 ∧
    occCountStr (tileUrl t vx vy vz) "{y}" = 0 ∧
    occCountStr (tileUrl t vx vy vz) "{z}" = 0 ∧
    (∃ a b, t.data = a ++ "{x}".data ++ b ∧
      (jsReplace t "{x}" vx).data = a ++ vx.data ++ b) ∧
    (∃ a b, (jsReplace t "{x}" vx).data = a ++ "{y}".data ++ b ∧
      (jsReplace (jsReplace t "{x}" vx) "{y}" vy).data = a ++ vy.data ++ b) ∧
    (∃ a b, (jsReplace (jsReplace t "{x}" vx) "{y}" vy).data = a ++ "{z}".data ++ b ∧
      (tileUrl t vx vy vz).data = a ++ vz.data ++ b) := by
  obtain ⟨a1, b1, hdec1, hrepl1, hzero1, hpres1⟩ :=
    replaceOnce_step t.data vx.data 'x' (by decide) (by decide) hvx.1 hvx.2 hx
  have hs1 : (jsReplace t "{x}" vx).data = a1 ++ vx.data ++ b1 := hrepl1
  have hy1 : occCount (jsReplace t "{x}" vx).data ['{', 'y', '}'] = 1 := by
    rw [hs1, hpres1 'y' (by decide) (by decide) (by decide)]
    exact hy
  have hz1 : occCount (jsReplace t "{x}" vx).data ['{', 'z', '}'] = 1 := by
    rw [hs1, hpres1 'z' (by decide) (by decide) (by decide)]
    exact hz
  have hx1 : occCount (jsReplace t "{x}" vx).data ['{', 'x', '}'] = 0 := by
    rw [hs1]
    exact hzero1
  obtain ⟨a2, b2, hdec2, hrepl2, hzero2, hpres2⟩ :=
    replaceOnce_step (jsReplace t "{x}" vx).data vy.data 'y' (by decide) (by decide)
      hvy.1 hvy.2 hy1
  have hs2 : (jsReplace (jsReplace t "{x}" vx) "{y}" vy).data =
      a2 ++ vy.data ++ b2 := hrepl2
  have hz2 : occCount (jsReplace (jsReplace t "{x}" vx) "{y}" vy).data
      ['{', 'z', '}'] = 1 := by
    rw [hs2, hpres2 'z' (by decide) (by decide) (by decide)]
    exact hz1
  have hx2 : occCount (jsReplace (jsReplace t "{x}" vx) "{y}" vy).data
      ['{', 'x', '}'] = 0 := by
    rw [hs2, hpres2 'x' (by decide) (by decide) (by decide)]
    exact hx1
  have hy2 : occCount (jsReplace (jsReplace t "{x}" vx) "{y}" vy).data
      ['{', 'y', '}'] = 0 := by
    rw [hs2]
    exact hzero2
  obtain ⟨a3, b3, hdec3, hrepl3, hzero3, hpres3⟩ :=
    replaceOnce_step (jsReplace (jsReplace t "{x}" vx) "{y}" vy).data vz.data 'z'
      (by decide) (by decide) hvz.1 hvz.2 hz2
  have hs3 : (tileUrl t vx vy vz).data = a3 ++ vz.data ++ b3 := hrepl3
  refine ⟨?_, ?_, ?_, ⟨a1, b1, hdec1, hs1⟩, ⟨a2, b2, hdec2, hs2⟩,
    ⟨a3, b3, hdec3, hs3⟩⟩
  · show occCount (tileUrl t vx vy vz).data ['{', 'x', '}'] = 0
    rw [hs3, hpres3 'x' (by decide) (by decide) (by decide)]
    exact hx2
  · show occCount (tileUrl t vx vy vz).data ['{', 'y', '}'] = 0
    rw [hs3, hpres3 'y' (by decide) (by decide) (by decide)]
    exact hy2
  · show occCount (tileUrl t vx vy vz).data ['{', 'z', '}'] = 0
    rw [hs3]
    exact hzero3

/-- C6 witness: the concrete template with one placeholder each, at tile
coordinates x=10, y=3, z=5, is fully substituted with no residual
placeholder. -/
theorem claim_C6_witness :
    occCountStr (tileUrl "https://tile.example/map/m1/{z}/{x}/{y}" "10" "3" "5") "{x}" = 0 ∧
    occCountStr (tileUrl "https://tile.example/map/m1/{z}/{x}/{y}" "10" "3" "5") "{y}" = 0 ∧
    occCountStr (tileUrl "https://tile.example/map/m1/{z}/{x}/{y}" "10" "3" "5") "{z}" = 0 ∧
    (∃ a b, "https://tile.example/map/m1/{z}/{x}/{y}".data = a ++ "{x}".data ++ b ∧
      (jsReplace "https://tile.example/map/m1/{z}/{x}/{y}" "{x}" "10").data =
        a ++ "10".data ++ b) ∧
    (∃ a b, (jsReplace "https://tile.example/map/m1/{z}/{x}/{y}" "{x}" "10").data =
        a ++ "{y}".data ++ b ∧
      (jsReplace (jsReplace "https://tile.example/map/m1/{z}/{x}/{y}" "{x}" "10")
          "{y}" "3").data = a ++ "3".data ++ b) ∧
    (∃ a b, (jsReplace (jsReplace "https://tile.example/map/m1/{z}/{x}/{y}" "{x}" "10")
          "{y}" "3").data = a ++ "{z}".data ++ b ∧
      (tileUrl "https://tile.example/map/m1/{z}/{x}/{y}" "10" "3" "5").data =
        a ++ "5".data ++ b) :=
  claim_C6_amended "https://tile.example/map/m1/{z}/{x}/{y}" "10" "3" "5"
    (by decide) (by decide) (by decide) (by decide) (by decide) (by decide)

/-- C6 counterexample: the legacy tile handler redirects to the raw
template, so all three placeholders survive in the URL the tile request is
redirected to. -/
theorem claim_C6_counterexample :
    legacyTileRedirect "https://tile.example/map/m0/{z}/{x}/{y}" =
      "https://tile.example/map/m0/{z}/{x}/{y}" ∧
    occCountStr (legacyTileRedirect "https://tile.example/map/m0/{z}/{x}/{y}") "{x}" = 1 ∧
    occCountStr (legacyTileRedirect "https://tile.example/map/m0/{z}/{x}/{y}") "{y}" = 1 ∧
    occCountStr (legacyTileRedirect "https://tile.example/map/m0/{z}/{x}/{y}") "{z}" = 1 :=
  ⟨rfl, by decide, by decide, by decide⟩
